import Mathlib

/-!
Verification of the candle feature pipeline and anomaly-detection core of the
repository (src/binance-data-loader.js and src/autoencoder.js).

Numbers are modelled as exact rationals (JS doubles idealized: no rounding).
Where JS can produce non-finite values that the code then observes
(division by zero in `processKlineData`), a four-point JS-number type `JSNum`
with IEEE-style rules for the operations actually used keeps the embedding
faithful; everywhere else denominators are provably nonzero on the reachable
paths, so plain `ℚ` (and `ℝ` where `Math.sqrt` appears) is exact.
-/

/-- JS double at the precision the claims need: a finite rational, one of the
two infinities, or NaN. -/
inductive JSNum where
  | fin : ℚ → JSNum
  | posInf : JSNum
  | negInf : JSNum
  | nan : JSNum
deriving DecidableEq, Repr

/-- JS division `a / b` of two finite doubles (exact rationals, no signed
zero since operands come from parsed market data): `0/0` is NaN, `x/0` is a
signed infinity, otherwise the exact quotient. -/
def jsDivQ (a b : ℚ) : JSNum :=
  if b = 0 then
    if a = 0 then JSNum.nan
    else if a > 0 then JSNum.posInf
    else JSNum.negInf
  else JSNum.fin (a / b)

/-- JS multiplication on `JSNum` (IEEE rules: NaN propagates, infinity times
zero is NaN, otherwise signs multiply). -/
def jsMul : JSNum → JSNum → JSNum
  | JSNum.nan, _ => JSNum.nan
  | _, JSNum.nan => JSNum.nan
  | JSNum.fin a, JSNum.fin b => JSNum.fin (a * b)
  | JSNum.fin a, JSNum.posInf =>
      if a = 0 then JSNum.nan else if a > 0 then JSNum.posInf else JSNum.negInf
  | JSNum.fin a, JSNum.negInf =>
      if a = 0 then JSNum.nan else if a > 0 then JSNum.negInf else JSNum.posInf
  | JSNum.posInf, JSNum.fin b =>
      if b = 0 then JSNum.nan else if b > 0 then JSNum.posInf else JSNum.negInf
  | JSNum.negInf, JSNum.fin b =>
      if b = 0 then JSNum.nan else if b > 0 then JSNum.negInf else JSNum.posInf
  | JSNum.posInf, JSNum.posInf => JSNum.posInf
  | JSNum.posInf, JSNum.negInf => JSNum.negInf
  | JSNum.negInf, JSNum.posInf => JSNum.negInf
  | JSNum.negInf, JSNum.negInf => JSNum.posInf

/-- JS `a || b` for two finite doubles: `a` unless `a` is falsy (zero), in
which case `b`. -/
def jsOrQ (a b : ℚ) : ℚ := if a = 0 then b else a

/-- JS `Array.prototype.slice(start, end)` for non-negative clamped indices,
as used with `Math.max(0, i-w)` in `processKlineData` (ℕ subtraction already
clamps at 0). -/
def jsSlice (l : List α) (s e : ℕ) : List α := (l.drop s).take (e - s)

/-- Fields of one raw kline that the embedded features read
(`parseFloat(kline[1])`, `parseFloat(kline[4])`, `parseFloat(kline[5])` in
`processKlineData`). `open` is a Lean keyword, hence `openPrice`. -/
structure Candle where
  openPrice : ℚ
  close : ℚ
  volume : ℚ
deriving DecidableEq, Repr

instance : Inhabited Candle := ⟨⟨0, 0, 0⟩⟩

/-- Fields of one processed data point (`processedData[i]` in
`processKlineData`) that the verified claims touch. `priceChange`,
`volumeChange` and `priceGap` are `JSNum` because the source can produce
non-finite values for them; the remaining embedded features are finite on
every path. (`bollingerPosition` is exposed separately as `bollingerFeature`
because it needs the real square root.) -/
structure ProcessedPoint where
  openPrice : ℚ
  close : ℚ
  volume : ℚ
  priceChange : JSNum
  volumeChange : JSNum
  priceGap : JSNum
  rsi : ℚ
deriving DecidableEq, Repr

instance : Inhabited ProcessedPoint :=
  ⟨⟨0, 0, 0, JSNum.fin 0, JSNum.fin 0, JSNum.fin 0, 0⟩⟩

/-- Source `calculateRSI(data)`: with fewer than 2 points return the neutral
50; otherwise accumulate gains and losses over consecutive close-to-close
changes, return 100 when losses are 0 (checked first), 0 when gains are 0,
else `100 - 100/(1+gains/losses)`. -/
def calculateRSI (data : List ProcessedPoint) : ℚ :=
  if data.length < 2 then 50
  else
    let changes := List.zipWith (fun b a => b.close - a.close) data.tail data
    let gl := changes.foldl
      (fun gl change => if change > 0 then (gl.1 + change, gl.2) else (gl.1, gl.2 - change))
      ((0 : ℚ), (0 : ℚ))
    let gains := gl.1
    let losses := gl.2
    if losses = 0 then 100
    else if gains = 0 then 0
    else
      let rs := gains / losses
      100 - 100 / (1 + rs)

/-- Body of the loop in `processKlineData` for one kline `k`, where `acc` is
`processedData` so far (the current point is pushed only after all features
are computed, so every window sliced from `acc` excludes the current candle).
`i := acc.length` is the loop index; `processedData[i-1]` is `acc.getLast?`. -/
def processStep (acc : List ProcessedPoint) (k : Candle) : ProcessedPoint :=
  let i := acc.length
  let prev? := acc.getLast?
  -- priceChange = i > 0 ? ((close - prev.close) / prev.close) * 100 : 0
  let priceChange : JSNum :=
    match prev? with
    | some prev => jsMul (jsDivQ (k.close - prev.close) prev.close) (JSNum.fin 100)
    | none => JSNum.fin 0
  -- volumeChange = i > 0 ? ((volume - prev.volume) / prev.volume) * 100 : 0
  let volumeChange : JSNum :=
    match prev? with
    | some prev => jsMul (jsDivQ (k.volume - prev.volume) prev.volume) (JSNum.fin 100)
    | none => JSNum.fin 0
  -- priceGap = Math.abs(open - prev?.close || open) / (prev?.close || open) * 100
  -- NB: `-` binds tighter than `||`, so the numerator is `(open - prev.close) || open`,
  -- and at i = 0 the inner `open - undefined` is NaN (falsy), so both the
  -- numerator and the denominator fall back to `open`.
  let priceGap : JSNum :=
    match prev? with
    | some prev =>
        jsMul (jsDivQ |jsOrQ (k.openPrice - prev.close) k.openPrice|
                      (jsOrQ prev.close k.openPrice)) (JSNum.fin 100)
    | none => jsMul (jsDivQ |k.openPrice| k.openPrice) (JSNum.fin 100)
  -- rsi = calculateRSI(processedData.slice(Math.max(0, i-13), i+1))
  let rsi := calculateRSI (jsSlice acc (i - 13) (i + 1))
  { openPrice := k.openPrice
    close := k.close
    volume := k.volume
    priceChange := priceChange
    volumeChange := volumeChange
    priceGap := priceGap
    rsi := rsi }

/-- Source `processKlineData(klineData)`: the left-to-right loop that pushes
one processed point per kline. -/
def processKlineData (klineData : List Candle) : List ProcessedPoint :=
  klineData.foldl (fun acc k => acc ++ [processStep acc k]) []

example :
    ((processKlineData [⟨100, 100, 100⟩, ⟨100, 100, 100⟩]).getD 1 default).rsi = 50 := by
  with_unfolding_all decide

example :
    ((processKlineData [⟨50, 100, 1⟩, ⟨110, 90, 1⟩]).getD 1 default).priceGap
      = JSNum.fin 10 := by
  with_unfolding_all decide

example :
    ((processKlineData [⟨50, 100, 1⟩, ⟨100, 90, 1⟩]).getD 1 default).priceGap
      = JSNum.fin 100 := by
  with_unfolding_all decide

example :
    ((processKlineData [⟨0, 0, 0⟩, ⟨1, 1, 1⟩]).getD 1 default).priceChange
      = JSNum.posInf := by
  with_unfolding_all decide

/-- Source `calculateBollingerPosition`: the simple moving average
`closes.reduce((sum, price) => sum + price, 0) / closes.length`. -/
def smaOf (closes : List ℚ) : ℚ := closes.sum / closes.length

/-- Source `calculateBollingerPosition`: the population variance
`closes.reduce((sum, price) => sum + Math.pow(price - sma, 2), 0) / closes.length`. -/
def varianceOf (closes : List ℚ) : ℚ :=
  (closes.map (fun price => (price - smaOf closes) ^ 2)).sum / closes.length

/-- Source `calculateBollingerPosition(data, currentPrice)`: neutral 0 with
fewer than 20 points; otherwise the position of `currentPrice` between the
bands `sma ± 2·std` (std needs the real square root, hence `ℝ`). -/
noncomputable def calculateBollingerPosition
    (data : List ProcessedPoint) (currentPrice : ℚ) : ℝ :=
  if data.length < 20 then 0
  else
    let closes := data.map (fun d => d.close)
    let sma := smaOf closes
    let variance := varianceOf closes
    let std : ℝ := Real.sqrt (variance : ℝ)
    let upperBand : ℝ := (sma : ℝ) + 2 * std
    let lowerBand : ℝ := (sma : ℝ) - 2 * std
    if (currentPrice : ℝ) ≤ lowerBand then -1
    else if (currentPrice : ℝ) ≥ upperBand then 1
    else ((currentPrice : ℝ) - (sma : ℝ)) / (upperBand - (sma : ℝ))

/-- The `bollingerPosition` feature at index `i` of `processKlineData`:
`calculateBollingerPosition(processedData.slice(Math.max(0, i-19), i+1), close)`,
where `processedData` at iteration `i` is exactly the processed image of the
first `i` klines (the loop pushes the current point only afterwards). -/
noncomputable def bollingerFeature (klineData : List Candle) (i : ℕ) : ℝ :=
  calculateBollingerPosition
    (jsSlice (processKlineData (klineData.take i)) (i - 19) (i + 1))
    ((klineData.getD i default).close)

/-- Modelled from the claim wording for C1 (not from the source): the band
position computed from the mean and population standard deviation of the
closes in the window including the current candle, with the claimed
tie-break for a degenerate band. -/
noncomputable def claimBollingerPosition (closes : List ℚ) (currentPrice : ℚ) : ℝ :=
  let mean := smaOf closes
  let std : ℝ := Real.sqrt ((varianceOf closes : ℚ) : ℝ)
  let upper : ℝ := (mean : ℝ) + 2 * std
  let lower : ℝ := (mean : ℝ) - 2 * std
  if (currentPrice : ℝ) ≤ lower then -1
  else if (currentPrice : ℝ) ≥ upper then 1
  else if upper = (mean : ℝ) then 0
  else ((currentPrice : ℝ) - (mean : ℝ)) / (upper - (mean : ℝ))

/-- Per-feature min/max entry of `minMaxValues` in the data loader. -/
structure MinMaxStats where
  min : ℚ
  max : ℚ
deriving DecidableEq, Repr

/-- Source `normalizeValue(value, feature)`: `(value - min) / range` when the
range is positive, else 0. -/
def normalizeValue (stats : MinMaxStats) (value : ℚ) : ℚ :=
  let range := stats.max - stats.min
  if range > 0 then (value - stats.min) / range else 0

/-- Source `denormalizeValue(normalizedValue, feature)`:
`normalizedValue * range + min`. -/
def denormalizeValue (stats : MinMaxStats) (normalizedValue : ℚ) : ℚ :=
  let range := stats.max - stats.min
  normalizedValue * range + stats.min

/-- Source `calculateThreshold` (autoencoder.js): per-row errors are given;
threshold = `min(mean + 1.5*std, p95)` with `std` the population standard
deviation and `p95` the entry at index `floor(0.95 * n)` of the ascending
sort (exact-real model of the float arithmetic; `p99` is computed and unused
in the source). -/
noncomputable def calculateThreshold (errorArray : List ℝ) : ℝ :=
  let mean := errorArray.sum / (errorArray.length : ℝ)
  let variance :=
    (errorArray.map (fun val => (val - mean) ^ 2)).sum / (errorArray.length : ℝ)
  let std := Real.sqrt variance
  let statThreshold := mean + 1.5 * std
  let sortedErrors := List.insertionSort (· ≤ ·) errorArray
  let p95 := sortedErrors.getD (Nat.floor ((sortedErrors.length : ℝ) * 0.95)) 0
  min statThreshold p95

/-- Severity tiers assigned by `detectAnomalies`. -/
inductive Severity where
  | normal : Severity
  | warning : Severity
  | critical : Severity
deriving DecidableEq, Repr

/-- Classification of one reconstruction error in `detectAnomalies`:
`warningThreshold = threshold`, `criticalThreshold = threshold * 1.2`,
critical first, then warning, else normal. -/
def classifySeverity (threshold error : ℚ) : Severity :=
  let warningThreshold := threshold
  let criticalThreshold := threshold * 1.2
  if error ≥ criticalThreshold then Severity.critical
  else if error ≥ warningThreshold then Severity.warning
  else Severity.normal

/-- The fixed feature order of `calculateFeatureContributions` and
`prepareTrainingData`. -/
def featureNames : List String :=
  ["priceChange", "volume", "fundingRateProxy", "openInterestProxy",
   "priceAcceleration", "volumeSpike", "priceGap", "priceMomentum",
   "volumeMomentum", "rsi", "bollingerPosition", "marketRegime"]

/-- One entry pushed by `calculateFeatureContributions`. -/
structure Contribution where
  feature : String
  contribution : ℚ
  originalValue : ℚ
  reconstructedValue : ℚ
deriving DecidableEq, Repr

instance : Inhabited Contribution := ⟨⟨"", 0, 0, 0⟩⟩

/-- Source `calculateFeatureContributions(original, reconstruction)` applied
to one row (the source slices row `i` out of the tensors and reads
`arraySync()[0]`): entry `i` pairs `featureNames[i]` with
`Math.abs(original[i] - reconstruction[i])`, in feature order. -/
def calculateFeatureContributions
    (originalArray reconstructionArray : List ℚ) : List Contribution :=
  (List.range originalArray.length).map (fun i =>
    { feature := featureNames.getD i default
      contribution := |originalArray.getD i 0 - reconstructionArray.getD i 0|
      originalValue := originalArray.getD i 0
      reconstructedValue := reconstructionArray.getD i 0 })

/-- Per-row mean squared reconstruction error,
`tf.mean(tf.square(tf.sub(X, reconstructions)), 1)` for one row. -/
def rowError (x reconstruction : List ℚ) : ℚ :=
  (List.zipWith (fun a b => (a - b) ^ 2) x reconstruction).sum / x.length

/-- One anomaly record pushed by `detectAnomalies` (metadata elements are an
opaque pass-through of type `α`; `featureContributions` is attached only when
metadata was supplied, mirroring `if (metadata)`). -/
structure Anomaly (α : Type) where
  index : ℕ
  error : ℚ
  severity : Severity
  threshold : ℚ
  warningThreshold : ℚ
  criticalThreshold : ℚ
  metadata : Option α
  featureContributions : Option (List Contribution)
deriving DecidableEq, Repr

/-- The loop body of `detectAnomalies` for row `i` with error `e`. -/
def mkAnomaly (t : ℚ) (X reconstructions : List (List ℚ))
    (metadata : Option (List α)) (i : ℕ) (e : ℚ) : Anomaly α :=
  { index := i
    error := e
    severity := classifySeverity t e
    threshold := t
    warningThreshold := t
    criticalThreshold := t * 1.2
    metadata := match metadata with
      | some md => md[i]?
      | none => none
    featureContributions := match metadata with
      | some _ => some (calculateFeatureContributions
          (X.getD i []) (reconstructions.getD i []))
      | none => none }

/-- The result object of `detectAnomalies`. -/
structure DetectResults (α : Type) where
  anomalies : List (Anomaly α)
  normalCount : ℕ
  warningCount : ℕ
  criticalCount : ℕ
  threshold : ℚ
  totalSamples : ℕ
  anomalyRate : ℚ
deriving DecidableEq, Repr

/-- The message of the precondition failure in `detectAnomalies`. -/
def notTrainedMsg : String := "Model not trained or threshold not calculated"

/-- JS truthiness of `this.threshold` (a nullable number): null and 0 are
falsy. -/
def jsTruthyQ : Option ℚ → Bool
  | none => false
  | some q => decide (q ≠ 0)

/-- Source `detectAnomalies(X, metadata)` of `MLPAutoencoder`, parameterized
by the opaque trained model through its reconstructions: throws unless a
model is present and the threshold is truthy; classifies every row, attaches
contributions when metadata is passed, sorts by descending error, and
returns the aggregate counts. -/
def detectAnomalies (modelPresent : Bool) (threshold : Option ℚ)
    (X reconstructions : List (List ℚ)) (metadata : Option (List α)) :
    Except String (DetectResults α) :=
  if !modelPresent || !jsTruthyQ threshold then Except.error notTrainedMsg
  else
    let t := threshold.getD 0
    let errorArray := List.zipWith rowError X reconstructions
    let anomalies := (List.range errorArray.length).map (fun i =>
      mkAnomaly t X reconstructions metadata i (errorArray.getD i 0))
    let normalCount := anomalies.countP (fun a => decide (a.severity = Severity.normal))
    let warningCount := anomalies.countP (fun a => decide (a.severity = Severity.warning))
    let criticalCount := anomalies.countP (fun a => decide (a.severity = Severity.critical))
    Except.ok
      { anomalies := List.insertionSort (fun a b => b.error ≤ a.error) anomalies
        normalCount := normalCount
        warningCount := warningCount
        criticalCount := criticalCount
        threshold := t
        totalSamples := errorArray.length
        anomalyRate := ((warningCount + criticalCount : ℕ) : ℚ) / (errorArray.length : ℚ) }

/-- Per-row vote combination of `EnsembleAutoencoder.detectAnomalies`, given
the severities the member models assigned at one position of their (already
sorted) anomaly lists: majority thresholds use `Math.ceil(numModels / 2)`,
which is `(numModels + 1) / 2` in ℕ. -/
def combineSeverities (memberSeverities : List Severity) : Severity :=
  let numModels := memberSeverities.length
  let warningVotes := memberSeverities.count Severity.warning
  let criticalVotes := memberSeverities.count Severity.critical
  if criticalVotes ≥ (numModels + 1) / 2 then Severity.critical
  else if warningVotes ≥ (numModels + 1) / 2 then Severity.warning
  else if warningVotes + criticalVotes ≥ (numModels + 1) / 2 then Severity.warning
  else Severity.normal

example : combineSeverities [Severity.critical, Severity.critical, Severity.normal]
    = Severity.critical := by decide

example : combineSeverities [Severity.warning, Severity.normal, Severity.normal]
    = Severity.normal := by decide

/-! ### Structural lemmas about the processing loop -/

@[simp]
lemma processStep_close (acc : List ProcessedPoint) (k : Candle) :
    (processStep acc k).close = k.close := rfl

lemma processStep_rsi (acc : List ProcessedPoint) (k : Candle) :
    (processStep acc k).rsi
      = calculateRSI (jsSlice acc (acc.length - 13) (acc.length + 1)) := rfl

lemma processKlineData_concat (l : List Candle) (k : Candle) :
    processKlineData (l ++ [k])
      = processKlineData l ++ [processStep (processKlineData l) k] := by
  simp [processKlineData, List.foldl_append]

@[simp]
lemma processKlineData_length (l : List Candle) :
    (processKlineData l).length = l.length := by
  induction l using List.reverseRecOn with
  | nil => rfl
  | append_singleton l k ih => simp [processKlineData_concat, ih]

lemma processKlineData_getD (l : List Candle) (i : ℕ) (h : i < l.length) :
    (processKlineData l).getD i default
      = processStep (processKlineData (l.take i)) (l.getD i default) := by
  induction l using List.reverseRecOn with
  | nil => simp at h
  | append_singleton l k ih =>
      rw [processKlineData_concat]
      rcases Nat.lt_or_ge i l.length with hi | hi
      · rw [List.getD_append _ _ _ _ (by simpa using hi),
          List.take_append_of_le_length hi.le,
          List.getD_append _ _ _ _ hi]
        exact ih hi
      · have hi' : i = l.length := by
          have := h
          simp at this
          omega
        subst hi'
        rw [List.getD_append_right _ _ _ _ (by simp),
          List.take_left, List.getD_append_right _ _ _ _ le_rfl]
        simp

lemma processKlineData_close_mem (l : List Candle) (c : ℚ)
    (hflat : ∀ k ∈ l, k.close = c) :
    ∀ p ∈ processKlineData l, p.close = c := by
  induction l using List.reverseRecOn with
  | nil => intro p hp; simp [processKlineData] at hp
  | append_singleton l k ih =>
      intro p hp
      rw [processKlineData_concat] at hp
      rcases List.mem_append.mp hp with hp | hp
      · exact ih (fun x hx => hflat x (List.mem_append_left _ hx)) p hp
      · have hk : p = processStep (processKlineData l) k := by simpa using hp
        rw [hk, processStep_close]
        exact hflat k (List.mem_append_right _ (by simp))

/-! ### The RSI of a flat close series -/

lemma flatChanges (c : ℚ) :
    ∀ (data : List ProcessedPoint), (∀ p ∈ data, p.close = c) →
      List.zipWith (fun b a => b.close - a.close) data.tail data
        = List.replicate (data.length - 1) 0
  | [], _ => rfl
  | [_], _ => rfl
  | p :: q :: rest, h => by
      have hq : ∀ x ∈ q :: rest, x.close = c :=
        fun x hx => h x (List.mem_cons_of_mem p hx)
      have ih := flatChanges c (q :: rest) hq
      simp only [List.tail_cons] at ih ⊢
      simp only [List.zipWith_cons_cons, List.length_cons]
      rw [h q (by simp), h p (by simp), ih]
      simp [List.replicate_succ]

lemma foldl_gainLoss_replicate (m : ℕ) :
    (List.replicate m (0 : ℚ)).foldl
      (fun gl change => if change > 0 then (gl.1 + change, gl.2) else (gl.1, gl.2 - change))
      ((0 : ℚ), (0 : ℚ)) = (0, 0) := by
  induction m with
  | zero => rfl
  | succ m ih => simpa [List.replicate_succ] using ih

lemma calculateRSI_flat (data : List ProcessedPoint) (c : ℚ)
    (h : ∀ p ∈ data, p.close = c) :
    calculateRSI data = if data.length < 2 then 50 else 100 := by
  by_cases hlen : data.length < 2
  · simp [calculateRSI, hlen]
  · simp only [calculateRSI, if_neg hlen]
    rw [flatChanges c data h, foldl_gainLoss_replicate]
    simp

/-! ### The bollinger window always holds fewer than 20 points -/

lemma bollingerFeature_eq_zero (klineData : List Candle) (i : ℕ) :
    bollingerFeature klineData i = 0 := by
  have hlen : (jsSlice (processKlineData (klineData.take i)) (i - 19) (i + 1)).length < 20 := by
    simp only [jsSlice, List.length_take, List.length_drop, processKlineData_length]
    omega
  simp only [bollingerFeature, calculateBollingerPosition]
  rw [if_pos hlen]

/-! ### Claims about the feature pipeline -/

/-- Claim C1, amended: the window `processKlineData` passes to
`calculateBollingerPosition` is sliced from the processed points of the
candles before index `i` only (the current point is pushed afterwards), so it
holds `min i 19 < 20` candles and the `bollingerPosition` feature is 0 at
every index of every candle sequence. -/
theorem C1_bollinger_always_zero (klineData : List Candle) (i : ℕ) :
    bollingerFeature klineData i = 0 :=
  bollingerFeature_eq_zero klineData i

/-- Claim C1, counterexample to the claim as stated: with 20 candles whose
closes are ten 8s followed by ten 12s, index 19 has a full 20-candle trailing
window with mean 10 and population standard deviation 2, so the claimed band
position is `(12-10)/((10+4)-10) = 1/2`, but the feature computed by the code
is 0. -/
theorem C1_counterexample :
    ¬ (∀ (klineData : List Candle) (i : ℕ), 19 ≤ i → i < klineData.length →
        bollingerFeature klineData i
          = claimBollingerPosition
              ((jsSlice klineData (i - 19) (i + 1)).map (fun k => k.close))
              ((klineData.getD i default).close)) := by
  intro hclaim
  have h := hclaim (List.replicate 10 ⟨8, 8, 8⟩ ++ List.replicate 10 ⟨12, 12, 12⟩)
    19 (by omega) (by simp)
  rw [bollingerFeature_eq_zero] at h
  have hcloses :
      (jsSlice (List.replicate 10 (⟨8, 8, 8⟩ : Candle) ++ List.replicate 10 ⟨12, 12, 12⟩)
          (19 - 19) (19 + 1)).map (fun k => k.close)
        = List.replicate 10 (8 : ℚ) ++ List.replicate 10 12 := by
    with_unfolding_all decide
  have hclose19 :
      ((List.replicate 10 (⟨8, 8, 8⟩ : Candle)
          ++ List.replicate 10 (⟨12, 12, 12⟩ : Candle)).getD 19 default).close = 12 := by
    with_unfolding_all decide
  rw [hcloses, hclose19] at h
  have hsma : smaOf (List.replicate 10 (8 : ℚ) ++ List.replicate 10 12) = 10 := by
    with_unfolding_all decide
  have hvar : varianceOf (List.replicate 10 (8 : ℚ) ++ List.replicate 10 12) = 4 := by
    with_unfolding_all decide
  have hsqrt : Real.sqrt ((4 : ℚ) : ℝ) = 2 := by
    rw [show ((4 : ℚ) : ℝ) = (2 : ℝ) ^ 2 by norm_num, Real.sqrt_sq (by norm_num)]
  rw [claimBollingerPosition, hsma, hvar, hsqrt] at h
  norm_num at h

/-- Claim C2: evaluation of the code at the failing inputs. Because `-` binds
tighter than `||` in `Math.abs(open - processedData[i-1]?.close || open)`, a
zero gap (`open[1] == close[0] == 100`) yields `priceGap = 100`, and index 0
(where `open - undefined` is NaN) also yields 100, where the claim says 0 in
both cases. -/
theorem C2_priceGap_evaluation :
    ((processKlineData [⟨50, 100, 1⟩, ⟨100, 90, 1⟩]).getD 1 default).priceGap
        = JSNum.fin 100
  ∧ ((processKlineData [⟨50, 100, 1⟩]).getD 0 default).priceGap = JSNum.fin 100 := by
  constructor <;> with_unfolding_all decide

/-- Claim C3: evaluation of the code at the failing input. With
`close[0] = 0` and `volume[0] = 0`, the divisions in `priceChange` and
`volumeChange` at index 1 are unguarded and produce positive infinity, which
enters the feature record; the claim says both should be 0 and that no
feature value is Infinity. -/
theorem C3_division_by_zero_evaluation :
    ((processKlineData [⟨0, 0, 0⟩, ⟨1, 1, 1⟩]).getD 1 default).priceChange
        = JSNum.posInf
  ∧ ((processKlineData [⟨0, 0, 0⟩, ⟨1, 1, 1⟩]).getD 1 default).volumeChange
        = JSNum.posInf := by
  constructor <;> with_unfolding_all decide

/-- Claim C7, amended: on a candle sequence whose closes are all equal, the
`rsi` feature is 100 at every index `i ≥ 2` and 50 at indices 0 and 1,
because the window passed to `calculateRSI` holds only the `min i 13`
already-processed candles (the current one excluded), which is fewer than 2
when `i ≤ 1`; from 2 points on, gains and losses are both 0 and the
`losses == 0` check fires first, giving 100. -/
theorem C7_rsi_flat_series (klineData : List Candle) (c : ℚ)
    (hflat : ∀ k ∈ klineData, k.close = c) (i : ℕ) (hi : i < klineData.length) :
    ((processKlineData klineData).getD i default).rsi = if i < 2 then 50 else 100 := by
  rw [processKlineData_getD klineData i hi, processStep_rsi]
  have hA : (processKlineData (klineData.take i)).length = i := by
    simp [List.length_take]
    omega
  have hmem : ∀ p ∈ jsSlice (processKlineData (klineData.take i))
      ((processKlineData (klineData.take i)).length - 13)
      ((processKlineData (klineData.take i)).length + 1), p.close = c := by
    intro p hp
    have hp' : p ∈ processKlineData (klineData.take i) :=
      List.mem_of_mem_drop (List.mem_of_mem_take hp)
    exact processKlineData_close_mem _ c
      (fun k hk => hflat k (List.mem_of_mem_take hk)) p hp'
  rw [calculateRSI_flat _ c hmem]
  have hlen : (jsSlice (processKlineData (klineData.take i))
      ((processKlineData (klineData.take i)).length - 13)
      ((processKlineData (klineData.take i)).length + 1)).length = min i 13 := by
    simp only [jsSlice, List.length_take, List.length_drop, hA]
    omega
  rw [hlen]
  rcases Nat.lt_or_ge i 2 with h2 | h2
  · rw [if_pos (by omega), if_pos h2]
  · rw [if_neg (by omega), if_neg (by omega)]

/-- Claim C7 witness: three equal-close candles, index 2: the rsi feature is
100 there. -/
theorem C7_rsi_flat_series_witness :
    (∀ k ∈ [(⟨100, 100, 100⟩ : Candle), ⟨100, 100, 100⟩, ⟨100, 100, 100⟩], k.close = 100)
  ∧ 2 < ([(⟨100, 100, 100⟩ : Candle), ⟨100, 100, 100⟩, ⟨100, 100, 100⟩]).length
  ∧ ((processKlineData [⟨100, 100, 100⟩, ⟨100, 100, 100⟩, ⟨100, 100, 100⟩]).getD 2
        default).rsi = if 2 < 2 then 50 else 100 :=
  ⟨by decide, by decide,
    C7_rsi_flat_series [⟨100, 100, 100⟩, ⟨100, 100, 100⟩, ⟨100, 100, 100⟩] 100
      (by decide) 2 (by decide)⟩

/-- Claim C7, counterexample to the claim as stated: two candles with equal
closes; at index 1 the window passed to `calculateRSI` holds a single point,
so the feature is 50, not the claimed 100. -/
theorem C7_counterexample :
    ¬ (∀ (klineData : List Candle) (c : ℚ), (∀ k ∈ klineData, k.close = c) →
        ∀ i, 1 ≤ i → i < klineData.length →
          ((processKlineData klineData).getD i default).rsi = 100) := by
  intro hclaim
  have h := hclaim [⟨100, 100, 100⟩, ⟨100, 100, 100⟩] 100 (by decide) 1
    (by omega) (by decide)
  have hv : ((processKlineData
      [(⟨100, 100, 100⟩ : Candle), ⟨100, 100, 100⟩]).getD 1 default).rsi = 50 := by
    with_unfolding_all decide
  rw [hv] at h
  exact absurd h (by norm_num)

/-! ### Claims about severity classification and the normalizer -/

/-- Claim C5: for every scored row (the guard in `detectAnomalies` rejects a
zero threshold and calibration never produces a negative one, so `0 < t`),
severity is critical iff `e ≥ t*1.2`, warning iff `t ≤ e < t*1.2`, normal iff
`e < t`; the boundaries are inclusive: `e = t` is warning, `e = t*1.2` is
critical. -/
theorem C5_severity_boundaries (t e : ℚ) (h0 : 0 ≤ t) (hne : t ≠ 0) :
    (classifySeverity t e = Severity.critical ↔ t * 1.2 ≤ e)
  ∧ (classifySeverity t e = Severity.warning ↔ t ≤ e ∧ e < t * 1.2)
  ∧ (classifySeverity t e = Severity.normal ↔ e < t)
  ∧ classifySeverity t t = Severity.warning
  ∧ classifySeverity t (t * 1.2) = Severity.critical := by
  have ht : 0 < t := lt_of_le_of_ne h0 (Ne.symm hne)
  have h12 : t < t * 1.2 := by nlinarith
  refine ⟨?_, ?_, ?_, ?_, ?_⟩
  · simp only [classifySeverity]
    split_ifs with h1 h2
    · exact iff_of_true rfl h1
    · exact iff_of_false (by decide) h1
    · exact iff_of_false (by decide) h1
  · simp only [classifySeverity]
    split_ifs with h1 h2
    · exact iff_of_false (by decide) (fun hc => absurd hc.2 (by linarith))
    · exact iff_of_true rfl ⟨h2, by linarith [not_le.mp h1]⟩
    · exact iff_of_false (by decide) (fun hc => h2 hc.1)
  · simp only [classifySeverity]
    split_ifs with h1 h2
    · exact iff_of_false (by decide) (by intro hc; linarith)
    · exact iff_of_false (by decide) (by intro hc; linarith)
    · exact iff_of_true rfl (not_le.mp h2)
  · simp only [classifySeverity]
    rw [if_neg (by intro hc; linarith), if_pos le_rfl]
  · simp only [classifySeverity]
    rw [if_pos le_rfl]

/-- Claim C5 witness at `t = 1`, `e = 3/2`. -/
theorem C5_severity_boundaries_witness :
    (0 : ℚ) ≤ 1 ∧ (1 : ℚ) ≠ 0
  ∧ ((classifySeverity 1 (3 / 2) = Severity.critical ↔ (1 : ℚ) * 1.2 ≤ 3 / 2)
    ∧ (classifySeverity 1 (3 / 2) = Severity.warning ↔ (1 : ℚ) ≤ 3 / 2 ∧ (3 / 2 : ℚ) < 1 * 1.2)
    ∧ (classifySeverity 1 (3 / 2) = Severity.normal ↔ (3 / 2 : ℚ) < 1)
    ∧ classifySeverity 1 1 = Severity.warning
    ∧ classifySeverity 1 ((1 : ℚ) * 1.2) = Severity.critical) :=
  ⟨by norm_num, by norm_num, C5_severity_boundaries 1 (3 / 2) (by norm_num) (by norm_num)⟩

/-- Claim C6: the ensemble vote combination of
`EnsembleAutoencoder.detectAnomalies` is critical iff critical votes reach
`ceil(n/2)`, otherwise warning iff the warning votes, or the warning plus
critical votes, reach `ceil(n/2)`, otherwise normal; for three members,
(critical, critical, normal) combines to critical and
(warning, normal, normal) to normal. -/
theorem C6_ensemble_majority (memberSeverities : List Severity) :
    (combineSeverities memberSeverities = Severity.critical ↔
        (memberSeverities.length + 1) / 2 ≤ memberSeverities.count Severity.critical)
  ∧ (combineSeverities memberSeverities = Severity.warning ↔
        memberSeverities.count Severity.critical < (memberSeverities.length + 1) / 2
        ∧ ((memberSeverities.length + 1) / 2 ≤ memberSeverities.count Severity.warning
          ∨ (memberSeverities.length + 1) / 2
              ≤ memberSeverities.count Severity.warning
                + memberSeverities.count Severity.critical))
  ∧ (combineSeverities memberSeverities = Severity.normal ↔
        memberSeverities.count Severity.critical < (memberSeverities.length + 1) / 2
        ∧ memberSeverities.count Severity.warning
            + memberSeverities.count Severity.critical
              < (memberSeverities.length + 1) / 2)
  ∧ combineSeverities [Severity.critical, Severity.critical, Severity.normal]
      = Severity.critical
  ∧ combineSeverities [Severity.warning, Severity.normal, Severity.normal]
      = Severity.normal := by
  refine ⟨?_, ?_, ?_, by decide, by decide⟩ <;>
    · simp only [combineSeverities]
      split_ifs with h1 h2 h3 <;> simp_all <;> omega

/-- Claim C8: the MinMax normalizer round-trips: with `max > min`,
`denormalizeValue` inverts `normalizeValue` exactly, and with `max = min` the
normalized value is 0 for every input. -/
theorem C8_normalizer_roundtrip (stats : MinMaxStats) (v : ℚ) :
    (stats.min < stats.max →
      denormalizeValue stats (normalizeValue stats v) = v)
  ∧ (stats.max = stats.min → normalizeValue stats v = 0) := by
  constructor
  · intro h
    have hr : stats.max - stats.min > 0 := by linarith
    simp only [normalizeValue, denormalizeValue, if_pos hr]
    field_simp
  · intro h
    simp [normalizeValue, h]

/-- Claim C8 witness at stats (0, 2) with v = 5 and stats (3, 3) with v = 7. -/
theorem C8_normalizer_roundtrip_witness :
    denormalizeValue ⟨0, 2⟩ (normalizeValue ⟨0, 2⟩ 5) = 5
  ∧ normalizeValue ⟨3, 3⟩ 7 = 0 :=
  ⟨(C8_normalizer_roundtrip ⟨0, 2⟩ 5).1 (by norm_num),
   (C8_normalizer_roundtrip ⟨3, 3⟩ 7).2 rfl⟩

/-! ### Threshold calibration -/

lemma sum_map_mul_fn (c : ℝ) (f : ℝ → ℝ) (l : List ℝ) :
    (l.map (fun e => c * f e)).sum = c * (l.map f).sum := by
  induction l with
  | nil => simp
  | cons a l ih => simp [ih, mul_add]

lemma sum_map_mul (c : ℝ) (l : List ℝ) :
    (l.map (fun e => c * e)).sum = c * l.sum := by
  simpa using sum_map_mul_fn c (fun e => e) l

lemma insertionSort_map_mul (c : ℝ) (hc : 0 < c) (l : List ℝ) :
    List.insertionSort (· ≤ ·) (l.map (fun e => c * e))
      = (List.insertionSort (· ≤ ·) l).map (fun e => c * e) := by
  refine List.eq_of_perm_of_sorted ?_ (List.sorted_insertionSort _ _) ?_
  · exact (List.perm_insertionSort _ _).trans
      (((List.perm_insertionSort _ l).map _).symm)
  · exact List.Pairwise.map _
      (fun a b hab => mul_le_mul_of_nonneg_left hab hc.le)
      (List.sorted_insertionSort ((· ≤ ·) : ℝ → ℝ → Prop) l)

/-- Claim C4: threshold calibration is positively homogeneous: scaling every
per-row reconstruction error of a non-empty error array by `c > 0` scales the
calibrated threshold by `c`. -/
theorem C4_threshold_homogeneous (errorArray : List ℝ) (c : ℝ)
    (hne : errorArray ≠ []) (hc : 0 < c) :
    calculateThreshold (errorArray.map (fun e => c * e))
      = c * calculateThreshold errorArray := by
  simp only [calculateThreshold]
  have hmean : (errorArray.map (fun e => c * e)).sum
      / (((errorArray.map (fun e => c * e)).length : ℕ) : ℝ)
      = c * (errorArray.sum / ((errorArray.length : ℕ) : ℝ)) := by
    rw [sum_map_mul, List.length_map, mul_div_assoc]
  simp only [hmean]
  have hvar : ((errorArray.map (fun e => c * e)).map
        (fun val => (val - c * (errorArray.sum / ((errorArray.length : ℕ) : ℝ))) ^ 2)).sum
      = c ^ 2 * ((errorArray.map
          (fun val => (val - errorArray.sum / ((errorArray.length : ℕ) : ℝ)) ^ 2)).sum) := by
    rw [List.map_map]
    have hfun : ((fun val => (val - c * (errorArray.sum / ((errorArray.length : ℕ) : ℝ))) ^ 2)
          ∘ (fun e => c * e))
        = fun e => c ^ 2 * ((e - errorArray.sum / ((errorArray.length : ℕ) : ℝ)) ^ 2) := by
      funext e
      simp only [Function.comp]
      ring
    rw [hfun, sum_map_mul_fn]
  simp only [hvar, List.length_map]
  have hsqrt : Real.sqrt (c ^ 2 * ((errorArray.map
        (fun val => (val - errorArray.sum / ((errorArray.length : ℕ) : ℝ)) ^ 2)).sum)
        / ((errorArray.length : ℕ) : ℝ))
      = c * Real.sqrt (((errorArray.map
          (fun val => (val - errorArray.sum / ((errorArray.length : ℕ) : ℝ)) ^ 2)).sum)
          / ((errorArray.length : ℕ) : ℝ)) := by
    rw [mul_div_assoc, Real.sqrt_mul (sq_nonneg c), Real.sqrt_sq hc.le]
  rw [hsqrt, insertionSort_map_mul c hc]
  have hsortlen : (List.insertionSort (· ≤ ·) errorArray).length = errorArray.length :=
    (List.perm_insertionSort _ _).length_eq
  have hn1 : 1 ≤ errorArray.length := List.length_pos.mpr hne
  have hidx : Nat.floor (((List.insertionSort (· ≤ ·) errorArray).length : ℝ) * 0.95)
      < (List.insertionSort (· ≤ ·) errorArray).length := by
    rw [hsortlen, Nat.floor_lt (by positivity)]
    have h1n : (1 : ℝ) ≤ (errorArray.length : ℝ) := by exact_mod_cast hn1
    nlinarith
  have hgetD : ((List.insertionSort (· ≤ ·) errorArray).map (fun e => c * e)).getD
        (Nat.floor ((((List.insertionSort (· ≤ ·) errorArray).map (fun e => c * e)).length : ℝ)
          * 0.95)) 0
      = c * ((List.insertionSort (· ≤ ·) errorArray).getD
          (Nat.floor (((List.insertionSort (· ≤ ·) errorArray).length : ℝ) * 0.95)) 0) := by
    rw [List.length_map]
    rw [List.getD_eq_getElem _ _ (by simpa using hidx), List.getElem_map,
      List.getD_eq_getElem _ _ hidx]
  rw [hgetD]
  have hfactor : c * (errorArray.sum / ((errorArray.length : ℕ) : ℝ))
        + 1.5 * (c * Real.sqrt (((errorArray.map
            (fun val => (val - errorArray.sum / ((errorArray.length : ℕ) : ℝ)) ^ 2)).sum)
            / ((errorArray.length : ℕ) : ℝ)))
      = c * ((errorArray.sum / ((errorArray.length : ℕ) : ℝ))
        + 1.5 * Real.sqrt (((errorArray.map
            (fun val => (val - errorArray.sum / ((errorArray.length : ℕ) : ℝ)) ^ 2)).sum)
            / ((errorArray.length : ℕ) : ℝ))) := by
    ring
  rw [hfactor]
  rcases le_total ((errorArray.sum / ((errorArray.length : ℕ) : ℝ))
      + 1.5 * Real.sqrt (((errorArray.map
          (fun val => (val - errorArray.sum / ((errorArray.length : ℕ) : ℝ)) ^ 2)).sum)
          / ((errorArray.length : ℕ) : ℝ)))
      ((List.insertionSort (· ≤ ·) errorArray).getD
        (Nat.floor (((List.insertionSort (· ≤ ·) errorArray).length : ℝ) * 0.95)) 0)
      with h | h
  · rw [min_eq_left h, min_eq_left (mul_le_mul_of_nonneg_left h hc.le)]
  · rw [min_eq_right h, min_eq_right (mul_le_mul_of_nonneg_left h hc.le)]

/-- Claim C4 witness at errors [1, 3] and c = 2. -/
theorem C4_threshold_homogeneous_witness :
    ([(1 : ℝ), 3] ≠ []) ∧ ((0 : ℝ) < 2)
  ∧ calculateThreshold ([(1 : ℝ), 3].map (fun e => 2 * e))
      = 2 * calculateThreshold [(1 : ℝ), 3] :=
  ⟨by simp, by norm_num, C4_threshold_homogeneous [(1 : ℝ), 3] 2 (by simp) (by norm_num)⟩

/-! ### Claims about detectAnomalies rows -/

lemma calculateFeatureContributions_getD (o r : List ℚ) (k : ℕ) (hk : k < o.length) :
    (calculateFeatureContributions o r).getD k default
      = { feature := featureNames.getD k default
          contribution := |o.getD k 0 - r.getD k 0|
          originalValue := o.getD k 0
          reconstructedValue := r.getD k 0 } := by
  simp only [calculateFeatureContributions]
  rw [List.getD_eq_getElem _ _ (by simpa using hk)]
  simp

/-- Claim C9, amended: when metadata is supplied, every row record returned
by `detectAnomalies` carries a `featureContributions` list whose entry `k`
pairs the `k`-th feature name with the absolute difference of the original
and reconstructed value at index `k`, in fixed feature order (not sorted by
magnitude); rows of a call without metadata carry none (see the
counterexample). -/
theorem C9_contributions_with_metadata {α : Type} (t : ℚ) (ht : t ≠ 0)
    (X reconstructions : List (List ℚ)) (md : List α) (res : DetectResults α)
    (hres : detectAnomalies true (some t) X reconstructions (some md) = Except.ok res)
    (row : Anomaly α) (hrow : row ∈ res.anomalies) :
    row.featureContributions
      = some (calculateFeatureContributions
          (X.getD row.index []) (reconstructions.getD row.index []))
  ∧ ∀ k, k < (X.getD row.index []).length →
      (calculateFeatureContributions
          (X.getD row.index []) (reconstructions.getD row.index [])).getD k default
        = { feature := featureNames.getD k default
            contribution := |(X.getD row.index []).getD k 0
              - (reconstructions.getD row.index []).getD k 0|
            originalValue := (X.getD row.index []).getD k 0
            reconstructedValue := (reconstructions.getD row.index []).getD k 0 } := by
  have hguard : (!true || !jsTruthyQ (some t)) = false := by
    simp [jsTruthyQ, ht]
  simp only [detectAnomalies, hguard, Bool.false_eq_true, if_false] at hres
  rw [Except.ok.injEq] at hres
  subst hres
  have hmem : row ∈ (List.range (List.zipWith rowError X reconstructions).length).map
      (fun i => mkAnomaly t X reconstructions (some md) i
        ((List.zipWith rowError X reconstructions).getD i 0)) := by
    exact ((List.perm_insertionSort _ _).mem_iff).mp hrow
  rcases List.mem_map.mp hmem with ⟨i, _, heq⟩
  refine ⟨?_, fun k hk => calculateFeatureContributions_getD _ _ k hk⟩
  rw [← heq]
  simp [mkAnomaly]

/-- Concrete anomaly row produced by the C9 witness call (metadata passed). -/
def c9Row : Anomaly Unit :=
  { index := 0
    error := 1
    severity := Severity.warning
    threshold := 1
    warningThreshold := 1
    criticalThreshold := 6 / 5
    metadata := some ()
    featureContributions := some [⟨"priceChange", 1, 1, 0⟩] }

/-- Concrete result of the C9 witness call. -/
def c9Result : DetectResults Unit :=
  { anomalies := [c9Row]
    normalCount := 0
    warningCount := 1
    criticalCount := 0
    threshold := 1
    totalSamples := 1
    anomalyRate := 1 }

/-- Claim C9 witness: a one-row call with metadata; the returned row carries
the contribution entry pairing the first feature name with the absolute
difference. -/
theorem C9_contributions_witness :
    ((1 : ℚ) ≠ 0)
  ∧ detectAnomalies true (some 1) [[(1 : ℚ)]] [[0]] (some [()]) = Except.ok c9Result
  ∧ c9Row ∈ c9Result.anomalies
  ∧ c9Row.featureContributions
      = some (calculateFeatureContributions ([[(1 : ℚ)]].getD 0 []) ([[(0 : ℚ)]].getD 0 []))
  ∧ (calculateFeatureContributions
        ([[(1 : ℚ)]].getD 0 []) ([[(0 : ℚ)]].getD 0 [])).getD 0 default
      = { feature := featureNames.getD 0 default
          contribution := |([[(1 : ℚ)]].getD 0 []).getD 0 0 - ([[(0 : ℚ)]].getD 0 []).getD 0 0|
          originalValue := ([[(1 : ℚ)]].getD 0 []).getD 0 0
          reconstructedValue := ([[(0 : ℚ)]].getD 0 []).getD 0 0 } := by
  have h1 : (1 : ℚ) ≠ 0 := by norm_num
  have hres : detectAnomalies true (some 1) [[(1 : ℚ)]] [[0]] (some [()])
      = Except.ok c9Result := by
    with_unfolding_all rfl
  have hrow : c9Row ∈ c9Result.anomalies := by
    with_unfolding_all decide
  refine ⟨h1, hres, hrow, ?_, ?_⟩
  · exact (C9_contributions_with_metadata 1 h1 [[(1 : ℚ)]] [[0]] [()] _ hres _ hrow).1
  · exact (C9_contributions_with_metadata 1 h1 [[(1 : ℚ)]] [[0]] [()] _ hres _ hrow).2 0
      (by with_unfolding_all decide)

/-- Concrete anomaly row produced by the C9 counterexample call (no
metadata, so no contributions are attached). -/
def c9NoMetaRow : Anomaly Unit :=
  { index := 0
    error := 1
    severity := Severity.warning
    threshold := 1
    warningThreshold := 1
    criticalThreshold := 6 / 5
    metadata := none
    featureContributions := none }

/-- Concrete result of the C9 counterexample call. -/
def c9NoMetaResult : DetectResults Unit :=
  { anomalies := [c9NoMetaRow]
    normalCount := 0
    warningCount := 1
    criticalCount := 0
    threshold := 1
    totalSamples := 1
    anomalyRate := 1 }

/-- Claim C9, counterexample to the claim as stated: on a calibrated model
(nonzero threshold) scored WITHOUT metadata, the returned rows carry no
`featureContributions` list at all (`if (metadata)` skips them), so not every
call on a calibrated model returns rows with contributions. -/
theorem C9_counterexample :
    ¬ (∀ (t : ℚ) (X reconstructions : List (List ℚ)) (md : Option (List Unit))
          (res : DetectResults Unit), t ≠ 0 →
        detectAnomalies true (some t) X reconstructions md = Except.ok res →
        ∀ row ∈ res.anomalies, row.featureContributions ≠ none) := by
  intro hclaim
  have hok : detectAnomalies true (some 1) [[(1 : ℚ)]] [[0]] (none : Option (List Unit))
      = Except.ok c9NoMetaResult := by
    with_unfolding_all rfl
  exact hclaim 1 [[(1 : ℚ)]] [[0]] none _ (by norm_num) hok c9NoMetaRow
    (by with_unfolding_all decide) rfl

/-- Claim C10: the guard of `detectAnomalies` tests JS truthiness of
`this.threshold`, so a calibrated threshold of exactly 0 (which calibration
produces when every training-row reconstruction error is 0) is rejected with
the trained-precondition error, while any nonzero threshold passes: the
precondition enforced is non-null AND non-zero, not merely that calibration
has run. -/
theorem C10_zero_threshold_rejected {α : Type} (n : ℕ) (_hn : 1 ≤ n)
    (X reconstructions : List (List ℚ)) (md : Option (List α)) (t : ℚ) (ht : t ≠ 0) :
    calculateThreshold (List.replicate n (0 : ℝ)) = 0
  ∧ detectAnomalies true (some 0) X reconstructions md = Except.error notTrainedMsg
  ∧ ∃ res, detectAnomalies true (some t) X reconstructions md = Except.ok res := by
  refine ⟨?_, ?_, ?_⟩
  · have hsort : List.insertionSort (· ≤ ·) (List.replicate n (0 : ℝ))
        = List.replicate n 0 := by
      have hp := List.perm_insertionSort ((· ≤ ·) : ℝ → ℝ → Prop)
        (List.replicate n (0 : ℝ))
      refine List.eq_replicate_iff.mpr ⟨hp.length_eq.trans (by simp), fun b hb => ?_⟩
      exact List.eq_of_mem_replicate (hp.subset hb)
    have hgetD : ∀ i : ℕ, (List.replicate n (0 : ℝ)).getD i 0 = 0 := by
      intro i
      rcases Nat.lt_or_ge i n with h | h
      · rw [List.getD_eq_getElem _ _ (by simpa using h)]
        simp
      · rw [List.getD_eq_default _ _ (by simpa using h)]
    simp [calculateThreshold, hsort, hgetD, Real.sqrt_zero]
  · have hzero : jsTruthyQ (some (0 : ℚ)) = false := by
      simp [jsTruthyQ]
    simp only [detectAnomalies, hzero, Bool.not_false, Bool.or_true]
    rfl
  · have hguard : (!true || !jsTruthyQ (some t)) = false := by
      simp [jsTruthyQ, ht]
    simp only [detectAnomalies, hguard, Bool.false_eq_true, if_false]
    exact ⟨_, rfl⟩

/-- Claim C10 witness at n = 1, a one-row matrix, no metadata, t = 1. -/
theorem C10_zero_threshold_rejected_witness :
    1 ≤ 1 ∧ ((1 : ℚ) ≠ 0)
  ∧ (calculateThreshold (List.replicate 1 (0 : ℝ)) = 0
    ∧ detectAnomalies true (some 0) [[(0 : ℚ)]] [[0]] (none : Option (List Unit))
        = Except.error notTrainedMsg
    ∧ ∃ res, detectAnomalies true (some 1) [[(0 : ℚ)]] [[0]] (none : Option (List Unit))
        = Except.ok res) :=
  ⟨le_rfl, by norm_num,
    C10_zero_threshold_rejected 1 le_rfl [[(0 : ℚ)]] [[0]] none 1 (by norm_num)⟩
